import Mathlib

/-!
Shallow embedding of the LoRa radio driver in `tallyWAN_send.py` (class
`LoRa`), together with proofs about its register-level behaviour.

The chip is modelled as a register file plus a 256-byte FIFO buffer.
Register reads and writes mirror the SPI transactions of `LoRa._read` /
`LoRa._write`: one byte travels per transaction, reads of `REG_FIFO` come
from the buffer at the address-pointer register and auto-increment it,
and every write is recorded in an explicit trace so that frame conditions
("this call issues no register write") can be stated and proved.

Python integers are modelled as `Nat`/`Int` with explicit `% 256` where the
hardware truncates to a byte; Python floats are modelled as `ℚ` (every
constant appearing in the driver, e.g. `61.03515625 = 15625/256` and `0.25`,
is exactly representable, so the rational model agrees with the float code
on all quantities the theorems mention); `round` is Python's
round-half-to-even; raised `ValueError`s become `Except` errors carrying the
message string.
-/

set_option autoImplicit false
set_option maxRecDepth 8192

namespace TallyWAN

/-! ## Register map constants (verbatim from the source) -/

def TX_BASE_ADDR : Nat := 0x00
def RX_BASE_ADDR : Nat := 0x00

def REG_FIFO : Nat := 0x00
def REG_OP_MODE : Nat := 0x01
def REG_FRF_MSB : Nat := 0x06
def REG_FRF_MID : Nat := 0x07
def REG_FRF_LSB : Nat := 0x08
def REG_FIFO_ADDR_PTR : Nat := 0x0d
def REG_FIFO_TX_BASE_ADDR : Nat := 0x0e
def REG_FIFO_RX_BASE_ADDR : Nat := 0x0f
def REG_FIFO_RX_CURRENT_ADDR : Nat := 0x10
def REG_IRQ_FLAGS : Nat := 0x12
def REG_RX_NB_BYTES : Nat := 0x13
def REG_PKT_RSSI_VALUE : Nat := 0x1a
def REG_PKT_SNR_VALUE : Nat := 0x1b
def REG_MODEM_CONFIG_1 : Nat := 0x1d
def REG_MODEM_CONFIG_2 : Nat := 0x1e
def REG_PAYLOAD_LENGTH : Nat := 0x22
def REG_DETECTION_OPTIMIZE : Nat := 0x31
def REG_DETECTION_THRESHOLD : Nat := 0x37
def REG_SYNC_WORD : Nat := 0x39
def REG_DIO_MAPPING_1 : Nat := 0x40

def MODE_LORA : Nat := 0x80
def MODE_STDBY : Nat := 0x01

def IRQ_TX_DONE_MASK : Nat := 0x08
def IRQ_PAYLOAD_CRC_ERROR_MASK : Nat := 0x20

def MAX_PKT_LENGTH : Nat := 255

/-! ## Chip and driver state -/

/-- The radio chip as seen through the register bus: a register file and the
internal FIFO buffer.  The FIFO address pointer lives in the register file at
`REG_FIFO_ADDR_PTR`; accessing `REG_FIFO` uses and auto-increments it. -/
structure Chip where
  regs : Nat → Nat
  fifo : Nat → Nat

/-- The driver-side cached state of the `LoRa` object: the `_implicit` flag,
the `_frequency` and `_bandwidth` caches, whether a receive callback is
subscribed (`_on_recv` is not `None`), whether an `rx` pin was supplied, and
whether a rising-edge interrupt handler is currently attached to that pin. -/
structure LoRaDriver where
  implicit : Bool
  frequency : ℚ
  bandwidth : Nat
  hasRecv : Bool
  rxPresent : Bool
  rxAttached : Bool

/-- A trace of register writes: `(address, value written)` pairs, in order. -/
abbrev WriteTrace := List (Nat × Nat)

/-- One bus read transaction (`LoRa._read`).  Reading `REG_FIFO` returns the
buffer byte at the address pointer and increments the (8-bit) pointer; any
other address returns the register value and leaves the chip unchanged. -/
def regRead (c : Chip) (addr : Nat) : Nat × Chip :=
  if addr = REG_FIFO then
    let p := c.regs REG_FIFO_ADDR_PTR
    (c.fifo (p % 256),
     { c with regs := fun a => if a = REG_FIFO_ADDR_PTR then (p + 1) % 256 else c.regs a })
  else
    (c.regs addr, c)

/-- One bus write transaction (`LoRa._write`).  The data byte on the wire is
`x % 256`.  Writing `REG_FIFO` stores into the buffer at the address pointer
and increments the pointer; any other address updates the register file. -/
def regWrite (c : Chip) (addr x : Nat) : Chip :=
  if addr = REG_FIFO then
    let p := c.regs REG_FIFO_ADDR_PTR
    { c with
      fifo := fun a => if a = p % 256 then x % 256 else c.fifo a,
      regs := fun a => if a = REG_FIFO_ADDR_PTR then (p + 1) % 256 else c.regs a }
  else
    { c with regs := fun a => if a = addr then x % 256 else c.regs a }

/-! ## Link quality: `get_rssi` and `get_snr` -/

/-- `LoRa.get_snr`: `return self._read(REG_PKT_SNR_VALUE) * 0.25`.
`_read` yields `int.from_bytes(x, 'big')` of a single byte, i.e. an
unsigned value in `0..255`. -/
def get_snr (c : Chip) : ℚ :=
  ((regRead c REG_PKT_SNR_VALUE).1 : ℚ) * 0.25

/-- `LoRa.get_rssi`: read `REG_PKT_RSSI_VALUE`; subtract 157 when the cached
frequency is at least 779.0 MHz, otherwise subtract 164. -/
def get_rssi (d : LoRaDriver) (c : Chip) : Int :=
  let rssi := (regRead c REG_PKT_RSSI_VALUE).1
  if (779 : ℚ) ≤ d.frequency then (rssi : Int) - 157 else (rssi : Int) - 164

/-! ## Concrete states used by witnesses and counterexamples -/

/-- A chip whose registers and buffer are all zero. -/
def chip0 : Chip := ⟨fun _ => 0, fun _ => 0⟩

/-- A chip whose packet-SNR register holds the byte `0xD8` (two's-complement −40). -/
def chipSnrD8 : Chip := ⟨fun a => if a = REG_PKT_SNR_VALUE then 0xd8 else 0, fun _ => 0⟩

/-- A chip whose packet-SNR register holds the byte 40. -/
def chipSnr40 : Chip := ⟨fun a => if a = REG_PKT_SNR_VALUE then 40 else 0, fun _ => 0⟩

/-- A chip whose packet-RSSI register holds the byte 100. -/
def chipRssi100 : Chip := ⟨fun a => if a = REG_PKT_RSSI_VALUE then 100 else 0, fun _ => 0⟩

/-- A default driver state: explicit header mode, 915.0 MHz, 250 kHz,
no subscriber, `rx` pin present, no handler attached. -/
def drv0 : LoRaDriver := ⟨false, 915, 250000, false, true, false⟩

/-- `drv0` with the cached frequency set to 868.0 MHz. -/
def drv868 : LoRaDriver := { drv0 with frequency := 868 }

/-- `drv0` with the cached frequency set to 433.0 MHz. -/
def drv433 : LoRaDriver := { drv0 with frequency := 433 }

/-! ## C1: `get_snr` and signedness -/

/-- C1 (counterexample): the claim says `get_snr` interprets the raw SNR byte
as a signed 8-bit value, so that byte `0xD8` (signed −40) yields −10.0.  The
code reads the byte unsigned (`int.from_bytes` of one byte), so for the byte
`0xD8` it returns `216 * 0.25 = 54.0`, not −10.0. -/
theorem get_snr_claim_cex :
    get_snr chipSnrD8 = 54 ∧ get_snr chipSnrD8 ≠ -10 := by
  constructor
  · simp [get_snr, chipSnrD8, regRead, REG_PKT_SNR_VALUE, REG_FIFO]
    norm_num
  · simp [get_snr, chipSnrD8, regRead, REG_PKT_SNR_VALUE, REG_FIFO]
    norm_num

/-- C1 (amended): `get_snr` reads the packet-SNR register as an unsigned
byte and returns that value multiplied by 0.25; for raw register byte 40 it
returns 10.0, and for raw byte `0xD8` it returns 54.0 (no sign extension is
performed). -/
theorem get_snr_unsigned_spec (c : Chip) :
    (c.regs REG_PKT_SNR_VALUE = 40 → get_snr c = 10) ∧
    (c.regs REG_PKT_SNR_VALUE = 0xd8 → get_snr c = 54) := by
  constructor <;> intro h <;> rw [REG_PKT_SNR_VALUE] at h <;>
    simp [get_snr, regRead, REG_PKT_SNR_VALUE, REG_FIFO, h] <;> norm_num

/-- Witness for C1's amended theorem at the two concrete chips. -/
theorem get_snr_unsigned_spec_witness :
    get_snr chipSnr40 = 10 ∧ get_snr chipSnrD8 = 54 :=
  ⟨(get_snr_unsigned_spec chipSnr40).1 rfl, (get_snr_unsigned_spec chipSnrD8).2 rfl⟩

/-! ## C7: `get_rssi` frequency-dependent offset -/

/-- C7: for every raw value of the packet-RSSI register, `get_rssi` returns
`raw − 157` when the cached configured frequency is at least 779 MHz and
`raw − 164` otherwise. -/
theorem get_rssi_offset_spec (d : LoRaDriver) (c : Chip) :
    ((779 : ℚ) ≤ d.frequency → get_rssi d c = (c.regs REG_PKT_RSSI_VALUE : Int) - 157) ∧
    (d.frequency < 779 → get_rssi d c = (c.regs REG_PKT_RSSI_VALUE : Int) - 164) := by
  constructor <;> intro h
  · simp [get_rssi, regRead, REG_PKT_RSSI_VALUE, REG_FIFO, h]
  · simp [get_rssi, regRead, REG_PKT_RSSI_VALUE, REG_FIFO, not_le.mpr h]

/-- Witness for C7: at 868.0 MHz a raw value of 100 gives −57, and at
433.0 MHz the same raw value gives −64. -/
theorem get_rssi_offset_spec_witness :
    get_rssi drv868 chipRssi100 = -57 ∧ get_rssi drv433 chipRssi100 = -64 := by
  constructor
  · have h := (get_rssi_offset_spec drv868 chipRssi100).1 (by norm_num [drv868, drv0])
    rw [h]
    simp [chipRssi100, REG_PKT_RSSI_VALUE]
  · have h := (get_rssi_offset_spec drv433 chipRssi100).2 (by norm_num [drv433, drv0])
    rw [h]
    simp [chipRssi100, REG_PKT_RSSI_VALUE]

/-! ## `set_implicit`, `on_recv` and the constructor's implicit-header step -/

/-- `LoRa.set_implicit`: when the requested value differs from the cached
`_implicit` flag, update the cache, read `REG_MODEM_CONFIG_1`, set or clear
its low bit, and write it back; otherwise do nothing. -/
def set_implicit (implicit : Bool) (d : LoRaDriver) (c : Chip) :
    LoRaDriver × Chip × WriteTrace :=
  if d.implicit ≠ implicit then
    let d2 := { d with implicit := implicit }
    let r := regRead c REG_MODEM_CONFIG_1
    let config := if implicit then r.1 ||| 0x01 else r.1 &&& 0xfe
    (d2, regWrite r.2 REG_MODEM_CONFIG_1 config, [(REG_MODEM_CONFIG_1, config)])
  else
    (d, c, [])

/-- `LoRa.on_recv`: store the callback; when an `rx` pin is present, either
write `0x00` to `REG_DIO_MAPPING_1` and attach a rising-edge handler
(callback supplied), or detach the handler (callback `None`).  The callback
itself is modelled by its presence (`hasRecv`). -/
def on_recv (callback : Bool) (d : LoRaDriver) (c : Chip) :
    LoRaDriver × Chip × WriteTrace :=
  let d0 := { d with hasRecv := callback }
  if d.rxPresent then
    if callback then
      ({ d0 with rxAttached := true },
       regWrite c REG_DIO_MAPPING_1 0x00, [(REG_DIO_MAPPING_1, 0x00)])
    else
      ({ d0 with rxAttached := false }, c, [])
  else
    (d0, c, [])

/-- Lines 73–74 of the constructor: `self._implicit = kw.get('implicit', False)`
followed by `self.set_implicit(self._implicit)` — the cache is assigned the
requested value before `set_implicit` runs. -/
def ctor_set_implicit (implicit : Bool) (d : LoRaDriver) (c : Chip) :
    LoRaDriver × Chip × WriteTrace :=
  set_implicit implicit { d with implicit := implicit } c

/-! ### Byte-level helper lemmas -/

lemma byte_or_one_lt : ∀ m < 256, m ||| 1 < 256 := by decide

lemma byte_and_fe_lt : ∀ m < 256, m &&& 0xfe < 256 := by decide

lemma byte_or_one_hi : ∀ m < 256, (m ||| 1) &&& 0xfe = m &&& 0xfe := by decide

lemma byte_and_fe_hi : ∀ m < 256, (m &&& 0xfe) &&& 0xfe = m &&& 0xfe := by decide

lemma byte_or_one_lo : ∀ m < 256, (m ||| 1) &&& 1 = 1 := by decide

lemma byte_and_fe_lo : ∀ m < 256, (m &&& 0xfe) &&& 1 = 0 := by decide

/-! ## C8: `set_implicit` write counting -/

/-- C8: with the register holding a byte, calling `set_implicit` with the
cached value issues zero register writes and changes nothing; calling it with
the opposite value issues exactly one register write, which changes only the
implicit-header bit (bit 0) of `REG_MODEM_CONFIG_1` — the upper bits are
preserved, bit 0 becomes the requested value — and updates the cache. -/
theorem set_implicit_write_count_spec (implicit : Bool) (d : LoRaDriver) (c : Chip)
    (hb : c.regs REG_MODEM_CONFIG_1 < 256) :
    (implicit = d.implicit → set_implicit implicit d c = (d, c, [])) ∧
    (implicit ≠ d.implicit →
      (set_implicit implicit d c).2.2.length = 1 ∧
      (set_implicit implicit d c).1 = { d with implicit := implicit } ∧
      (set_implicit implicit d c).2.1.regs REG_MODEM_CONFIG_1 &&& 0xfe
        = c.regs REG_MODEM_CONFIG_1 &&& 0xfe ∧
      (set_implicit implicit d c).2.1.regs REG_MODEM_CONFIG_1 &&& 1
        = (if implicit then 1 else 0) ∧
      (∀ a, a ≠ REG_MODEM_CONFIG_1 → (set_implicit implicit d c).2.1.regs a = c.regs a) ∧
      (set_implicit implicit d c).2.1.fifo = c.fifo) := by
  constructor
  · intro h
    simp [set_implicit, h]
  · intro h
    have hne : d.implicit ≠ implicit := fun hcon => h hcon.symm
    rw [REG_MODEM_CONFIG_1] at hb
    cases implicit with
    | false =>
      have h1 : (c.regs 29 &&& 0xfe) % 256 = c.regs 29 &&& 0xfe :=
        Nat.mod_eq_of_lt (byte_and_fe_lt _ hb)
      refine ⟨?_, ?_, ?_, ?_, ?_, ?_⟩ <;>
        simp [set_implicit, hne, regRead, regWrite, REG_MODEM_CONFIG_1, REG_FIFO, h1,
          byte_and_fe_hi _ hb, byte_and_fe_lo _ hb]
      exact fun a ha hcon => absurd hcon ha
    | true =>
      have h1 : (c.regs 29 ||| 1) % 256 = c.regs 29 ||| 1 :=
        Nat.mod_eq_of_lt (byte_or_one_lt _ hb)
      refine ⟨?_, ?_, ?_, ?_, ?_, ?_⟩ <;>
        simp [set_implicit, hne, regRead, regWrite, REG_MODEM_CONFIG_1, REG_FIFO, h1,
          byte_or_one_hi _ hb, byte_or_one_lo _ hb]
      exact fun a ha hcon => absurd hcon ha

/-- Witness for C8: on the all-zero chip with `drv0` (cached flag `false`),
requesting `false` issues no write and requesting `true` issues one. -/
theorem set_implicit_write_count_spec_witness :
    set_implicit false drv0 chip0 = (drv0, chip0, []) ∧
    (set_implicit true drv0 chip0).2.2.length = 1 :=
  ⟨(set_implicit_write_count_spec false drv0 chip0 (by simp [chip0])).1 rfl,
   ((set_implicit_write_count_spec true drv0 chip0 (by simp [chip0])).2 (by simp [drv0])).1⟩

/-! ## C9: unsubscribing the receive callback -/

/-- A driver with a callback subscribed and the interrupt handler attached. -/
def drvRx : LoRaDriver := { drv0 with hasRecv := true, rxAttached := true }

/-- A chip whose `REG_DIO_MAPPING_1` register holds 5. -/
def chipDio5 : Chip := ⟨fun a => if a = REG_DIO_MAPPING_1 then 5 else 0, fun _ => 0⟩

/-- C9 (counterexample): the claim says unsubscribing both detaches the
handler and writes the IRQ-to-pin mapping register `0x40`.  On a concrete
subscribed driver, `on_recv` with no callback detaches the handler but issues
an empty write trace and leaves register `0x40` untouched (still 5): the
mapping register is not written. -/
theorem on_recv_unsubscribe_cex :
    (on_recv false drvRx chipDio5).1.rxAttached = false ∧
    (on_recv false drvRx chipDio5).2.2 = [] ∧
    (on_recv false drvRx chipDio5).2.1.regs REG_DIO_MAPPING_1 = 5 := by
  refine ⟨?_, ?_, ?_⟩ <;> simp [on_recv, drvRx, drv0, chipDio5]

/-- C9 (amended): when an `rx` pin is present, unsubscribing the receive
callback detaches the rising-edge interrupt handler but issues no register
write at all — in particular `REG_DIO_MAPPING_1` is left unchanged; the
mapping register is only written (with `0x00`) when a callback is
subscribed. -/
theorem on_recv_unsubscribe_spec (d : LoRaDriver) (c : Chip)
    (h : d.rxPresent = true) :
    on_recv false d c = ({ d with hasRecv := false, rxAttached := false }, c, []) := by
  simp [on_recv, h]

/-- Witness for C9's amended theorem on a concrete subscribed driver. -/
theorem on_recv_unsubscribe_spec_witness :
    on_recv false drvRx chipDio5
      = ({ drvRx with hasRecv := false, rxAttached := false }, chipDio5, []) :=
  on_recv_unsubscribe_spec drvRx chipDio5 rfl

/-! ## C10: the constructor never programs the implicit-header bit -/

/-- C10: for every constructor configuration, the construction-time call to
`set_implicit` issues no register write and leaves the chip unchanged,
because the cached `_implicit` flag is assigned the requested value before
`set_implicit` is invoked; in particular the implicit-header bit of
`REG_MODEM_CONFIG_1` is never programmed during construction. -/
theorem ctor_implicit_no_write_spec (implicit : Bool) (d : LoRaDriver) (c : Chip) :
    ctor_set_implicit implicit d c = ({ d with implicit := implicit }, c, []) := by
  simp [ctor_set_implicit, set_implicit]

/-! ## `set_bandwidth` -/

/-- The ordered bandwidth table `bws` from `LoRa.set_bandwidth`. -/
def bws : List Nat := [7800, 10400, 15600, 20800, 31250, 41700, 62500, 125000, 250000]

/-- The scan loop of `set_bandwidth`: `i = 9; for j ...: if bw <= bws[j]: i = j; break`. -/
def bwScan (bw : Nat) : List Nat → Nat → Nat
  | [], _ => 9
  | v :: vs, j => if bw ≤ v then j else bwScan bw vs (j + 1)

/-- The index selected by `set_bandwidth` for request `bw`. -/
def bwIndex (bw : Nat) : Nat := bwScan bw bws 0

/-- `LoRa.set_bandwidth`: cache the request, pick the table index, and
read-modify-write the high nibble of `REG_MODEM_CONFIG_1`. -/
def set_bandwidth (bw : Nat) (d : LoRaDriver) (c : Chip) :
    LoRaDriver × Chip × WriteTrace :=
  let d2 := { d with bandwidth := bw }
  let i := bwIndex bw
  let x := (regRead c REG_MODEM_CONFIG_1).1 &&& 0x0f
  (d2, regWrite (regRead c REG_MODEM_CONFIG_1).2 REG_MODEM_CONFIG_1 (x ||| (i <<< 4)),
   [(REG_MODEM_CONFIG_1, x ||| (i <<< 4))])

/-- Closed form of the scan loop over the literal table. -/
lemma bwIndex_eq (bw : Nat) :
    bwIndex bw =
      if bw ≤ 7800 then 0 else if bw ≤ 10400 then 1 else if bw ≤ 15600 then 2
      else if bw ≤ 20800 then 3 else if bw ≤ 31250 then 4 else if bw ≤ 41700 then 5
      else if bw ≤ 62500 then 6 else if bw ≤ 125000 then 7 else if bw ≤ 250000 then 8
      else 9 := by
  simp [bwIndex, bws, bwScan]

lemma bwIndex_le_nine (bw : Nat) : bwIndex bw ≤ 9 := by
  rw [bwIndex_eq]
  split_ifs <;> norm_num

lemma byte_nibble_or_lo : ∀ x < 16, ∀ i < 10, (x ||| (i <<< 4)) &&& 0x0f = x := by decide

lemma byte_nibble_or_hi : ∀ x < 16, ∀ i < 10, (x ||| (i <<< 4)) >>> 4 = i := by decide

lemma byte_nibble_or_lt : ∀ x < 16, ∀ i < 10, (x ||| (i <<< 4)) < 256 := by decide

/-! ## C4: bandwidth table selection -/

set_option maxHeartbeats 1600000 in
/-- C4: `set_bandwidth` writes into the high nibble of `REG_MODEM_CONFIG_1`
(preserving its low nibble) the index `bwIndex bw`; for a request not above
250000 that index is the smallest index of the table whose entry is at least
the request, and for a request strictly above 250000 it is the reserved
index 9. -/
theorem set_bandwidth_table_spec (bw : Nat) (d : LoRaDriver) (c : Chip) :
    ((set_bandwidth bw d c).2.1.regs REG_MODEM_CONFIG_1 &&& 0x0f
       = c.regs REG_MODEM_CONFIG_1 &&& 0x0f) ∧
    ((set_bandwidth bw d c).2.1.regs REG_MODEM_CONFIG_1 >>> 4 = bwIndex bw) ∧
    (bw ≤ 250000 → bw ≤ bws.getD (bwIndex bw) 0 ∧
      ∀ j, j < bws.length → bw ≤ bws.getD j 0 → bwIndex bw ≤ j) ∧
    (250000 < bw → bwIndex bw = 9) := by
  have hx : c.regs REG_MODEM_CONFIG_1 &&& 0x0f < 16 :=
    lt_of_le_of_lt Nat.and_le_right (by norm_num)
  have hi : bwIndex bw < 10 := lt_of_le_of_lt (bwIndex_le_nine bw) (by norm_num)
  have hlt := byte_nibble_or_lt _ hx _ hi
  have hmod := Nat.mod_eq_of_lt hlt
  refine ⟨?_, ?_, ?_, ?_⟩
  · rw [REG_MODEM_CONFIG_1] at hx hlt hmod ⊢
    simp [set_bandwidth, regRead, regWrite, REG_MODEM_CONFIG_1, REG_FIFO, hmod,
      byte_nibble_or_lo _ hx _ hi]
  · rw [REG_MODEM_CONFIG_1] at hx hlt hmod ⊢
    simp [set_bandwidth, regRead, regWrite, REG_MODEM_CONFIG_1, REG_FIFO, hmod,
      byte_nibble_or_hi _ hx _ hi]
  · intro hbw
    refine ⟨?_, ?_⟩
    · rw [bwIndex_eq]
      split_ifs <;> simp [bws] <;> omega
    · intro j hj hle
      have hj9 : j < 9 := by simpa [bws] using hj
      rw [bwIndex_eq]
      interval_cases j <;>
        simp only [bws, List.getD_cons_zero, List.getD_cons_succ] at hle <;>
        split_ifs <;> omega
  · intro hbw
    rw [bwIndex_eq]
    split_ifs <;> omega

/-- Witness for C4: a request of 100000 selects index 7 (the 125000 entry),
and a request of 300000 selects the reserved index 9. -/
theorem set_bandwidth_table_spec_witness :
    bwIndex 100000 = 7 ∧
    (set_bandwidth 100000 drv0 chip0).2.1.regs REG_MODEM_CONFIG_1 >>> 4 = bwIndex 100000 ∧
    100000 ≤ bws.getD (bwIndex 100000) 0 ∧
    bwIndex 300000 = 9 :=
  ⟨by decide,
   (set_bandwidth_table_spec 100000 drv0 chip0).2.1,
   ((set_bandwidth_table_spec 100000 drv0 chip0).2.2.1 (by norm_num)).1,
   (set_bandwidth_table_spec 300000 drv0 chip0).2.2.2 (by norm_num)⟩

/-! ## `set_spreading_factor` -/

/-- A raised Python `ValueError`, carrying its message. -/
inductive PyErr where
  | valueError (msg : String)
deriving DecidableEq

/-- `LoRa.set_spreading_factor`: reject factors outside `[6,12]` before any
bus transaction; otherwise write the two detection ("chip errata") registers
and read-modify-write the high nibble of `REG_MODEM_CONFIG_2`. -/
def set_spreading_factor (sf : Int) (d : LoRaDriver) (c : Chip) :
    Except PyErr Unit × Chip × WriteTrace :=
  if sf < 6 ∨ 12 < sf then
    (.error (PyErr.valueError ("Spreading factor must be between 6-12")), c, [])
  else
    let c1 := regWrite c REG_DETECTION_OPTIMIZE (if sf = 6 then 0xc5 else 0xc3)
    let c2 := regWrite c1 REG_DETECTION_THRESHOLD (if sf = 6 then 0x0c else 0x0a)
    let r := regRead c2 REG_MODEM_CONFIG_2
    let config := (r.1 &&& 0x0f) ||| ((sf.toNat <<< 4) &&& 0xf0)
    (.ok (), regWrite r.2 REG_MODEM_CONFIG_2 config,
     [(REG_DETECTION_OPTIMIZE, if sf = 6 then 0xc5 else 0xc3),
      (REG_DETECTION_THRESHOLD, if sf = 6 then 0x0c else 0x0a),
      (REG_MODEM_CONFIG_2, config)])

lemma sf_nibble_lo : ∀ y < 16, ∀ s < 13, 6 ≤ s →
    (y ||| ((s <<< 4) &&& 0xf0)) &&& 0x0f = y := by decide

lemma sf_nibble_hi : ∀ y < 16, ∀ s < 13, 6 ≤ s →
    (y ||| ((s <<< 4) &&& 0xf0)) >>> 4 = s := by decide

lemma sf_nibble_lt : ∀ y < 16, ∀ s < 13, 6 ≤ s →
    (y ||| ((s <<< 4) &&& 0xf0)) < 256 := by decide

/-! ## C5: spreading-factor validation -/

/-- C5: for a request outside `[6,12]`, `set_spreading_factor` fails with the
`ValueError` before any register write — the chip (in particular the
detection-optimize, detection-threshold and modem-config-2 registers) is
returned unchanged and the write trace is empty; for a request inside
`[6,12]` the call succeeds and the factor ends up in the high nibble of
`REG_MODEM_CONFIG_2` with its low nibble preserved. -/
theorem set_spreading_factor_range_spec (sf : Int) (d : LoRaDriver) (c : Chip) :
    ((sf < 6 ∨ 12 < sf) →
      set_spreading_factor sf d c
        = (.error (PyErr.valueError ("Spreading factor must be between 6-12")), c, [])) ∧
    (6 ≤ sf → sf ≤ 12 →
      (set_spreading_factor sf d c).1 = .ok () ∧
      (set_spreading_factor sf d c).2.1.regs REG_MODEM_CONFIG_2 >>> 4 = sf.toNat ∧
      (set_spreading_factor sf d c).2.1.regs REG_MODEM_CONFIG_2 &&& 0x0f
        = c.regs REG_MODEM_CONFIG_2 &&& 0x0f) := by
  constructor
  · intro h
    simp [set_spreading_factor, h]
  · intro h6 h12
    have hguard : ¬(sf < 6 ∨ 12 < sf) := by omega
    have hs1 : 6 ≤ sf.toNat := by omega
    have hs2 : sf.toNat < 13 := by omega
    have hy : c.regs REG_MODEM_CONFIG_2 &&& 0x0f < 16 :=
      lt_of_le_of_lt Nat.and_le_right (by norm_num)
    rw [REG_MODEM_CONFIG_2] at hy
    have hlt := sf_nibble_lt _ hy _ hs2 hs1
    have hmod := Nat.mod_eq_of_lt hlt
    refine ⟨?_, ?_, ?_⟩ <;>
      simp [set_spreading_factor, hguard, regRead, regWrite, REG_DETECTION_OPTIMIZE,
        REG_DETECTION_THRESHOLD, REG_MODEM_CONFIG_2, REG_FIFO, hmod,
        sf_nibble_hi _ hy _ hs2 hs1, sf_nibble_lo _ hy _ hs2 hs1]

/-- Witness for C5: a request of 13 fails with the `ValueError` and leaves
the all-zero chip untouched; a request of 7 succeeds. -/
theorem set_spreading_factor_range_spec_witness :
    set_spreading_factor 13 drv0 chip0
      = (.error (PyErr.valueError ("Spreading factor must be between 6-12")), chip0, []) ∧
    (set_spreading_factor 7 drv0 chip0).1 = .ok () :=
  ⟨(set_spreading_factor_range_spec 13 drv0 chip0).1 (by norm_num),
   ((set_spreading_factor_range_spec 7 drv0 chip0).2 (by norm_num) (by norm_num)).1⟩

/-! ## Packet transmitter: `begin_packet` and `write_packet` -/

/-- `LoRa.standby`: write LoRa mode plus standby into the mode register. -/
def standby (c : Chip) : Chip × WriteTrace :=
  (regWrite c REG_OP_MODE (MODE_LORA ||| MODE_STDBY),
   [(REG_OP_MODE, MODE_LORA ||| MODE_STDBY)])

/-- `LoRa.begin_packet`: enter standby, reset the FIFO write pointer to the
transmit base address, and zero the payload-length register. -/
def begin_packet (c : Chip) : Chip × WriteTrace :=
  let s := standby c
  let c1 := regWrite s.1 REG_FIFO_ADDR_PTR TX_BASE_ADDR
  let c2 := regWrite c1 REG_PAYLOAD_LENGTH 0
  (c2, s.2 ++ [(REG_FIFO_ADDR_PTR, TX_BASE_ADDR), (REG_PAYLOAD_LENGTH, 0)])

/-- The byte loop of `write_packet`: one single-byte buffer write per payload
byte (`self._write(REG_FIFO, b[i])`). -/
def writeFifoList (c : Chip) : List Nat → Chip × WriteTrace
  | [] => (c, [])
  | x :: xs =>
    let c1 := regWrite c REG_FIFO x
    let r := writeFifoList c1 xs
    (r.1, (REG_FIFO, x) :: r.2)

/-- `LoRa.write_packet`: read the accumulated length, reject the call if the
new total would exceed `MAX_PKT_LENGTH - TX_BASE_ADDR`, otherwise append the
bytes to the buffer and store the new total. -/
def write_packet (b : List Nat) (c : Chip) : Except PyErr Unit × Chip × WriteTrace :=
  let n := (regRead c REG_PAYLOAD_LENGTH).1
  let m := b.length
  let p := MAX_PKT_LENGTH - TX_BASE_ADDR
  if n + m > p then
    (.error (PyErr.valueError ("Max payload length is 255")), c, [])
  else
    let r := writeFifoList c b
    (.ok (), regWrite r.1 REG_PAYLOAD_LENGTH (n + m), r.2 ++ [(REG_PAYLOAD_LENGTH, n + m)])

/-- The write trace of the byte loop is one `REG_FIFO` write per byte. -/
lemma writeFifoList_trace (b : List Nat) (c : Chip) :
    (writeFifoList c b).2 = b.map (fun x => (REG_FIFO, x)) := by
  induction b generalizing c with
  | nil => simp [writeFifoList]
  | cons x xs ih => simp [writeFifoList, ih]

/-! ## C3: payload capacity checking -/

/-- C3: `begin_packet` zeroes the tracked length; a `write_packet` call whose
bytes bring the tracked total to exactly `MAX_PKT_LENGTH - TX_BASE_ADDR`
(= 255) succeeds and issues one buffer-register write per byte (plus the
length update); a call that would exceed that bound fails with the
`ValueError` and performs no register write, returning the chip — including
the tracked length register — unchanged. -/
theorem write_packet_capacity_spec (b : List Nat) (c : Chip) :
    ((begin_packet c).1.regs REG_PAYLOAD_LENGTH = 0) ∧
    (c.regs REG_PAYLOAD_LENGTH + b.length = MAX_PKT_LENGTH - TX_BASE_ADDR →
      (write_packet b c).1 = .ok () ∧
      (write_packet b c).2.2 = b.map (fun x => (REG_FIFO, x)) ++
        [(REG_PAYLOAD_LENGTH, c.regs REG_PAYLOAD_LENGTH + b.length)]) ∧
    (MAX_PKT_LENGTH - TX_BASE_ADDR < c.regs REG_PAYLOAD_LENGTH + b.length →
      write_packet b c = (.error (PyErr.valueError ("Max payload length is 255")), c, [])) := by
  refine ⟨?_, ?_, ?_⟩
  · simp [begin_packet, standby, regWrite, regRead, REG_OP_MODE, REG_FIFO_ADDR_PTR,
      REG_PAYLOAD_LENGTH, REG_FIFO, TX_BASE_ADDR, MODE_LORA, MODE_STDBY]
  · intro h
    rw [REG_PAYLOAD_LENGTH] at h
    have hguard : ¬ (c.regs 34 + b.length > MAX_PKT_LENGTH - TX_BASE_ADDR) := by
      rw [h]
      exact lt_irrefl _
    constructor
    · simp [write_packet, regRead, REG_PAYLOAD_LENGTH, REG_FIFO, hguard]
    · simp [write_packet, regRead, REG_PAYLOAD_LENGTH, REG_FIFO, hguard, writeFifoList_trace]
  · intro h
    rw [REG_PAYLOAD_LENGTH] at h
    have hguard : c.regs 34 + b.length > MAX_PKT_LENGTH - TX_BASE_ADDR := h
    simp [write_packet, regRead, REG_PAYLOAD_LENGTH, REG_FIFO, hguard]

/-- Witness for C3: starting from the all-zero chip (tracked length 0), a
255-byte payload succeeds and a 256-byte payload fails with the `ValueError`
leaving the chip unchanged. -/
theorem write_packet_capacity_spec_witness :
    (write_packet (List.replicate 255 7) chip0).1 = .ok () ∧
    write_packet (List.replicate 256 7) chip0
      = (.error (PyErr.valueError ("Max payload length is 255")), chip0, []) :=
  ⟨((write_packet_capacity_spec (List.replicate 255 7) chip0).2.1
      (by simp [chip0, MAX_PKT_LENGTH, TX_BASE_ADDR])).1,
   (write_packet_capacity_spec (List.replicate 256 7) chip0).2.2
      (by simp [chip0, MAX_PKT_LENGTH, TX_BASE_ADDR])⟩

/-! ## Packet receiver: IRQ handler and payload extraction -/

/-- `LoRa._get_irq_flags`: read the IRQ-flags register and write the value
straight back (read-and-clear), returning the flags. -/
def get_irq_flags (c : Chip) : Nat × Chip × WriteTrace :=
  let f := (regRead c REG_IRQ_FLAGS).1
  (f, regWrite c REG_IRQ_FLAGS f, [(REG_IRQ_FLAGS, f)])

/-- The byte loop of `_read_payload`: `n` successive single-byte reads of
`REG_FIFO` (each consumes the auto-incrementing address pointer). -/
def readFifoN : Nat → Chip → List Nat × Chip
  | 0, c => ([], c)
  | Nat.succ k, c =>
    let r := regRead c REG_FIFO
    let rest := readFifoN k r.2
    (r.1 :: rest.1, rest.2)

/-- `LoRa._read_payload`: point the FIFO pointer at the current receive
address, pick the length from `REG_PAYLOAD_LENGTH` (implicit-header mode) or
`REG_RX_NB_BYTES` (explicit mode), then read that many buffer bytes. -/
def read_payload (d : LoRaDriver) (c : Chip) : List Nat × Chip × WriteTrace :=
  let cur := (regRead c REG_FIFO_RX_CURRENT_ADDR).1
  let c1 := regWrite c REG_FIFO_ADDR_PTR cur
  let n := if d.implicit then (regRead c1 REG_PAYLOAD_LENGTH).1
           else (regRead c1 REG_RX_NB_BYTES).1
  let r := readFifoN n c1
  (r.1, r.2, [(REG_FIFO_ADDR_PTR, cur)])

/-- `LoRa._irq_recv`: read-and-clear the IRQ flags; when the payload-CRC-error
bit is clear and a callback is subscribed, extract the payload and invoke the
callback once.  The first component collects the callback invocations (each
entry is the byte sequence passed to one invocation); the function has no
error channel, matching the Python handler which raises nothing. -/
def irq_recv (d : LoRaDriver) (c : Chip) : List (List Nat) × Chip × WriteTrace :=
  let r := get_irq_flags c
  if r.1 &&& IRQ_PAYLOAD_CRC_ERROR_MASK = 0 then
    if d.hasRecv then
      let p := read_payload d r.2.1
      ([p.1], p.2.1, r.2.2 ++ p.2.2)
    else ([], r.2.1, r.2.2)
  else ([], r.2.1, r.2.2)

/-- The payload length the receive path reports: the payload-length register
in implicit-header mode, the received-byte-count register in explicit mode. -/
def rxPayloadLen (d : LoRaDriver) (c : Chip) : Nat :=
  if d.implicit then c.regs REG_PAYLOAD_LENGTH else c.regs REG_RX_NB_BYTES

/-- The byte window the receive path extracts: `rxPayloadLen` buffer bytes
starting at the current-receive-address register. -/
def rxPayloadBytes (d : LoRaDriver) (c : Chip) : List Nat :=
  (List.range (rxPayloadLen d c)).map
    (fun i => c.fifo ((c.regs REG_FIFO_RX_CURRENT_ADDR + i) % 256))

/-- Reading `n` FIFO bytes yields the buffer window starting at the address
pointer, and leaves the buffer itself unchanged. -/
lemma readFifoN_reads (n : Nat) (c : Chip) :
    (readFifoN n c).1 =
      (List.range n).map (fun i => c.fifo ((c.regs REG_FIFO_ADDR_PTR + i) % 256)) := by
  induction n generalizing c with
  | zero => simp [readFifoN]
  | succ k ih =>
    simp only [readFifoN]
    rw [ih, List.range_succ_eq_map]
    simp only [List.map_cons, List.map_map]
    congr 1
    simp [regRead, REG_FIFO]
    intro a ha
    congr 1
    omega

/-! ## C2: CRC filtering on receive -/

/-- C2: for every receive interrupt event, if the payload-CRC-error bit of
the IRQ-flags register is set the callback receives no invocation (and no
error is surfaced — the result type has no error channel); if the bit is
clear and a callback is subscribed, the callback is invoked exactly once,
with exactly the buffer bytes starting at the current-receive-address, of
the length given by the payload-length register in implicit-header mode or
the received-byte-count register in explicit mode. -/
theorem irq_recv_crc_filter_spec (d : LoRaDriver) (c : Chip) :
    (c.regs REG_IRQ_FLAGS &&& IRQ_PAYLOAD_CRC_ERROR_MASK ≠ 0 →
      (irq_recv d c).1 = []) ∧
    (c.regs REG_IRQ_FLAGS &&& IRQ_PAYLOAD_CRC_ERROR_MASK = 0 → d.hasRecv = true →
      (irq_recv d c).1 = [rxPayloadBytes d c]) := by
  constructor
  · intro h
    rw [REG_IRQ_FLAGS, IRQ_PAYLOAD_CRC_ERROR_MASK] at h
    simp [irq_recv, get_irq_flags, regRead, regWrite, REG_IRQ_FLAGS, REG_FIFO,
      IRQ_PAYLOAD_CRC_ERROR_MASK, h]
  · intro h hr
    rw [REG_IRQ_FLAGS, IRQ_PAYLOAD_CRC_ERROR_MASK] at h
    simp only [irq_recv, get_irq_flags, read_payload, regRead, regWrite, REG_IRQ_FLAGS,
      IRQ_PAYLOAD_CRC_ERROR_MASK, REG_FIFO_RX_CURRENT_ADDR, REG_FIFO_ADDR_PTR,
      REG_PAYLOAD_LENGTH, REG_RX_NB_BYTES, REG_FIFO, h, hr, if_true]
    rw [readFifoN_reads]
    simp only [rxPayloadBytes, rxPayloadLen, REG_PAYLOAD_LENGTH, REG_RX_NB_BYTES,
      REG_FIFO_RX_CURRENT_ADDR, REG_FIFO_ADDR_PTR]
    simp [Nat.mod_add_mod, h]

/-- A receive-side driver in explicit-header mode with a subscribed callback. -/
def drvRxExp : LoRaDriver := { drv0 with hasRecv := true }

/-- A chip ready for a clean receive: IRQ flags clear, current receive
address 10, received byte count 3, buffer byte at address `a` equal to
`a + 100`. -/
def chipRxOk : Chip :=
  ⟨fun a => if a = REG_FIFO_RX_CURRENT_ADDR then 10
            else if a = REG_RX_NB_BYTES then 3 else 0,
   fun a => a + 100⟩

/-- The same chip with the payload-CRC-error bit set in the IRQ flags. -/
def chipRxCrcErr : Chip :=
  ⟨fun a => if a = REG_IRQ_FLAGS then IRQ_PAYLOAD_CRC_ERROR_MASK
            else if a = REG_FIFO_RX_CURRENT_ADDR then 10
            else if a = REG_RX_NB_BYTES then 3 else 0,
   fun a => a + 100⟩

/-- Witness for C2: with the CRC-error bit set the callback is not invoked;
with it clear the callback fires exactly once with the three buffer bytes
`[110, 111, 112]` found at addresses 10, 11, 12. -/
theorem irq_recv_crc_filter_spec_witness :
    (irq_recv drvRxExp chipRxCrcErr).1 = [] ∧
    (irq_recv drvRxExp chipRxOk).1 = [rxPayloadBytes drvRxExp chipRxOk] ∧
    rxPayloadBytes drvRxExp chipRxOk = [110, 111, 112] := by
  refine ⟨?_, ?_, ?_⟩
  · exact (irq_recv_crc_filter_spec drvRxExp chipRxCrcErr).1 (by decide)
  · exact (irq_recv_crc_filter_spec drvRxExp chipRxOk).2 (by decide) rfl
  · decide

/-! ## `set_frequency` -/

/-- The frequency step of the chip, `61.03515625` Hz (= 15625/256, the
32 MHz crystal divided by `2^19`), exactly as the source divides by it. -/
def FREQ_STEP : ℚ := 61.03515625

/-- Python's built-in `round`: round half to even. -/
def pyRound (q : ℚ) : Int :=
  if q - ⌊q⌋ < 1 / 2 then ⌊q⌋
  else if 1 / 2 < q - ⌊q⌋ then ⌊q⌋ + 1
  else if ⌊q⌋ % 2 = 0 then ⌊q⌋ else ⌊q⌋ + 1

/-- Python's `(x >> (8*k)) & 0xff` on an `int`: arithmetic (floor) shift
then the nonnegative remainder modulo 256. -/
def byteAt (x : Int) (k : Nat) : Nat := ((Int.fdiv x (2 ^ k)) % 256).toNat

/-- `LoRa.set_frequency`: cache the frequency (MHz), convert to Hz, round
the step count, and write its three bytes to the MSB/MID/LSB registers. -/
def set_frequency (frequency : ℚ) (d : LoRaDriver) (c : Chip) :
    LoRaDriver × Chip × WriteTrace :=
  let d2 := { d with frequency := frequency }
  let hz := frequency * 1000000
  let x := pyRound (hz / FREQ_STEP)
  let c1 := regWrite c REG_FRF_MSB (byteAt x 16)
  let c2 := regWrite c1 REG_FRF_MID (byteAt x 8)
  let c3 := regWrite c2 REG_FRF_LSB (byteAt x 0)
  (d2, c3,
   [(REG_FRF_MSB, byteAt x 16), (REG_FRF_MID, byteAt x 8), (REG_FRF_LSB, byteAt x 0)])

/-- The 24-bit frequency word currently stored in the MSB/MID/LSB registers. -/
def frfValue (c : Chip) : Nat :=
  c.regs REG_FRF_MSB * 65536 + c.regs REG_FRF_MID * 256 + c.regs REG_FRF_LSB

/-- Decoding the stored frequency word back through the step formula. -/
def decodeFrfHz (c : Chip) : ℚ := (frfValue c : ℚ) * FREQ_STEP

lemma FREQ_STEP_pos : (0 : ℚ) < FREQ_STEP := by norm_num [FREQ_STEP]

/-- Round-half-to-even is within half a unit of its argument. -/
lemma pyRound_dist (q : ℚ) : |(pyRound q : ℚ) - q| ≤ 1 / 2 := by
  have h0 : ((⌊q⌋ : ℚ)) ≤ q := Int.floor_le q
  have h1 : q < ⌊q⌋ + 1 := Int.lt_floor_add_one q
  unfold pyRound
  split_ifs with ha hb hc
  · rw [abs_le]
    constructor <;> linarith
  · push_cast
    rw [abs_le]
    constructor <;> linarith
  · rw [abs_le]
    constructor <;> linarith
  · push_cast
    rw [abs_le]
    constructor <;> linarith

lemma byteAt_lt (x : Int) (k : Nat) : byteAt x k < 256 := by
  unfold byteAt
  generalize Int.fdiv x (2 ^ k) = y
  omega

/-- `pyRound` fixes integers. -/
lemma pyRound_intCast (z : Int) : pyRound ((z : ℚ)) = z := by
  norm_num [pyRound, Int.floor_intCast]

/-- For a step count fitting in 24 bits, the three stored bytes reassemble
to the step count. -/
lemma frf_reconstruct (x : Int) (h0 : 0 ≤ x) (h1 : x < 16777216) :
    byteAt x 16 * 65536 + byteAt x 8 * 256 + byteAt x 0 = x.toNat := by
  unfold byteAt
  rw [show ((2:Int) ^ 16) = 65536 by norm_num, show ((2:Int) ^ 8) = 256 by norm_num,
    show ((2:Int) ^ 0) = 1 by norm_num]
  rw [Int.fdiv_eq_ediv _ (by norm_num), Int.fdiv_eq_ediv _ (by norm_num),
    Int.fdiv_eq_ediv _ (by norm_num)]
  omega

/-! ## C6: frequency encoding round-trip -/

/-- C6 (counterexample): the claim quantifies over every requested
frequency, but for 1024.0 MHz the computed step count is `2^24`, whose low
24 bits are zero: the stored word decodes to 0 Hz, which is not within half
a step of the requested 1 024 000 000 Hz. -/
theorem set_frequency_roundtrip_cex :
    decodeFrfHz (set_frequency 1024 drv0 chip0).2.1 = 0 ∧
    ¬ |decodeFrfHz (set_frequency 1024 drv0 chip0).2.1 - 1024 * 1000000| ≤ FREQ_STEP / 2 := by
  have hq : (1024 * 1000000 : ℚ) / FREQ_STEP = ((16777216 : Int) : ℚ) := by
    norm_num [FREQ_STEP]
  have hb16 : byteAt 16777216 16 = 0 := by decide
  have hb8 : byteAt 16777216 8 = 0 := by decide
  have hb0 : byteAt 16777216 0 = 0 := by decide
  have hz : decodeFrfHz (set_frequency 1024 drv0 chip0).2.1 = 0 := by
    simp only [set_frequency, decodeFrfHz, frfValue, hq, pyRound_intCast, hb16, hb8, hb0]
    simp [regWrite, REG_FRF_MSB, REG_FRF_MID, REG_FRF_LSB, REG_FIFO]
  refine ⟨hz, ?_⟩
  rw [hz, zero_sub, abs_neg, abs_of_nonneg (by norm_num : (0:ℚ) ≤ 1024 * 1000000)]
  norm_num [FREQ_STEP]

/-- C6 (amended): for every requested frequency whose rounded step count
`pyRound (frequency · 10^6 / FREQ_STEP)` is nonnegative and fits in 24 bits
(i.e. the request lies below 1024 MHz), the stored 24-bit word, decoded back
through the step formula, reproduces the requested frequency to within one
half of the step size. -/
theorem set_frequency_roundtrip_spec (f : ℚ) (d : LoRaDriver) (c : Chip)
    (h0 : 0 ≤ pyRound (f * 1000000 / FREQ_STEP))
    (h1 : pyRound (f * 1000000 / FREQ_STEP) < 16777216) :
    |decodeFrfHz (set_frequency f d c).2.1 - f * 1000000| ≤ FREQ_STEP / 2 := by
  have hb16 := Nat.mod_eq_of_lt (byteAt_lt (pyRound (f * 1000000 / FREQ_STEP)) 16)
  have hb8 := Nat.mod_eq_of_lt (byteAt_lt (pyRound (f * 1000000 / FREQ_STEP)) 8)
  have hb0 := Nat.mod_eq_of_lt (byteAt_lt (pyRound (f * 1000000 / FREQ_STEP)) 0)
  have hregs : frfValue (set_frequency f d c).2.1
      = byteAt (pyRound (f * 1000000 / FREQ_STEP)) 16 * 65536
        + byteAt (pyRound (f * 1000000 / FREQ_STEP)) 8 * 256
        + byteAt (pyRound (f * 1000000 / FREQ_STEP)) 0 := by
    simp [set_frequency, frfValue, regWrite, REG_FRF_MSB, REG_FRF_MID, REG_FRF_LSB,
      REG_FIFO, hb16, hb8, hb0]
  have hcast : ((pyRound (f * 1000000 / FREQ_STEP)).toNat : ℚ)
      = ((pyRound (f * 1000000 / FREQ_STEP) : Int) : ℚ) := by
    exact_mod_cast congrArg (fun z : Int => (z : ℚ)) (Int.toNat_of_nonneg h0)
  have hdec : decodeFrfHz (set_frequency f d c).2.1
      = ((pyRound (f * 1000000 / FREQ_STEP) : Int) : ℚ) * FREQ_STEP := by
    rw [decodeFrfHz, hregs, frf_reconstruct _ h0 h1, hcast]
  have hs := FREQ_STEP_pos
  rw [hdec]
  have hexp : ((pyRound (f * 1000000 / FREQ_STEP) : Int) : ℚ) * FREQ_STEP - f * 1000000
      = (((pyRound (f * 1000000 / FREQ_STEP) : Int) : ℚ) - f * 1000000 / FREQ_STEP)
        * FREQ_STEP := by
    rw [sub_mul, div_mul_cancel₀ _ (ne_of_gt hs)]
  rw [hexp, abs_mul, abs_of_pos hs]
  have hd := pyRound_dist (f * 1000000 / FREQ_STEP)
  calc |((pyRound (f * 1000000 / FREQ_STEP) : Int) : ℚ) - f * 1000000 / FREQ_STEP| * FREQ_STEP
      ≤ (1 / 2) * FREQ_STEP := mul_le_mul_of_nonneg_right hd (le_of_lt hs)
    _ = FREQ_STEP / 2 := by ring

/-- Witness for C6's amended theorem at 868.0 MHz on the all-zero chip. -/
theorem set_frequency_roundtrip_spec_witness :
    |decodeFrfHz (set_frequency 868 drv0 chip0).2.1 - 868 * 1000000| ≤ FREQ_STEP / 2 :=
  set_frequency_roundtrip_spec 868 drv0 chip0
    (by rw [show (868 * 1000000 : ℚ) / FREQ_STEP = ((14221312 : Int) : ℚ) from by
          norm_num [FREQ_STEP], pyRound_intCast]
        norm_num)
    (by rw [show (868 * 1000000 : ℚ) / FREQ_STEP = ((14221312 : Int) : ℚ) from by
          norm_num [FREQ_STEP], pyRound_intCast]
        norm_num)

end TallyWAN
